import Mathlib

/-!
Verification of the rust-synth modular synthesizer core.

The Rust source is embedded shallowly:

* `f32` values are modelled as exact rationals (`ℚ`); arithmetic on them is
  exact.  The float constants `std::f32::consts::PI` and `2.0f32.sqrt()` are
  modelled by the exact rational values of those `f32` bit patterns.
* The transcendental float functions (`sin`, `exp`, `ln`) and the random
  generator have no rational counterpart; they enter the model as parameters
  (`FloatOps`, and an explicit random sample argument for the noise waveform).
* Mutation is modelled by state-passing: every `update(&mut self, ...)`
  becomes a function from the old state to the new state.
* Rust `panic!` sites (missing registry field, accessor-kind mismatch,
  out-of-range slice) are modelled as `none` / a dedicated error constructor.
-/

namespace RustSynth

/-- Exact value of the `f32` constant `std::f32::consts::PI`
(bit pattern 0x40490FDB). -/
def piF : ℚ := 13176795 / 4194304

/-- Exact value of the `f32` result of `2.0f32.sqrt()`
(bit pattern 0x3FB504F3). -/
def sqrt2F : ℚ := 11863283 / 8388608

/-- Truncation toward zero, the rounding used by Rust float-to-int style
remainders: `trunc q` is `⌊q⌋` for nonnegative `q` and `⌈q⌉` otherwise. -/
def ratTrunc (q : ℚ) : ℤ := if 0 ≤ q then ⌊q⌋ else ⌈q⌉

/-- Rust `%` on floats (`fmod`): `x - y * trunc (x / y)`.  For `f32` this
operation is exact, so the rational model is faithful. -/
def rustRem (x y : ℚ) : ℚ := x - y * ratTrunc (x / y)

/-- The `WaveForm` enum of the synthesizer (the `module.rs` flavour, which
includes `Noise`). -/
inductive WaveForm where
  | sine
  | sawtooth
  | triangle
  | square
  | noise
deriving DecidableEq

/-- The transcendental `f32` operations used by the DSP units.  They are
uninterpreted parameters of the model: `sinF` for `f32::sin`, `expF` for
`f32::exp`, `lnF` for `f32::ln`. -/
structure FloatOps where
  sinF : ℚ → ℚ
  expF : ℚ → ℚ
  lnF : ℚ → ℚ

/-- Embedding of `restore_freq` from `src/module.rs`:
`(min.ln() + input * (max.ln() - min.ln())).exp()`. -/
def restore_freq (ops : FloatOps) (min max input : ℚ) : ℚ :=
  ops.expF (ops.lnF min + input * (ops.lnF max - ops.lnF min))

/-- Mutable state of a `VCO` unit (`src/module.rs`): phase accumulator, the
frequency-range parameters and the output value.  The input closures of the
Rust struct are supplied at each update call instead of being stored. -/
structure VCOst where
  phase : ℚ
  freq_min : ℚ
  freq_max : ℚ
  out : ℚ

/-- The `Default` instance of `VCO`. -/
def vcoDefault : VCOst := { phase := 0, freq_min := 0, freq_max := 0, out := 0 }

/-- Embedding of `VCO::update` from `src/module.rs`.  `in_freq` and
`in_waveform` are the values produced by the unit's input closures this tick;
`rnd` is the value `rand::random::<f32>()` would return if the noise branch
samples it. -/
def vcoUpdate (ops : FloatOps) (rnd in_freq : ℚ) (in_waveform : WaveForm)
    (v : VCOst) : VCOst :=
  let pi : ℚ := piF
  let pi2 : ℚ := pi * 2
  let pi12 : ℚ := pi / 2
  let pi32 : ℚ := pi12 * 3
  let freq := restore_freq ops v.freq_min v.freq_max in_freq
  let phase := rustRem (v.phase + freq * pi2 / 44100) pi2
  let out :=
    match in_waveform with
    | .sine => ops.sinF phase
    | .sawtooth =>
        if phase < pi then phase / pi else (phase - pi) / pi - 1
    | .triangle =>
        if phase < pi12 then phase / pi12
        else if phase < pi32 then 1 - (phase - pi12) / pi12
        else (phase - pi32) / pi12 - 1
    | .square => if phase < pi then 1 else -1
    | .noise =>
        if 0 ≤ phase ∧ phase < freq * pi2 / 44100 then -1 + rnd * 2 else v.out
  { v with phase := phase, out := out }

/-- Iterated VCO updates starting from the default unit with the given
frequency range; `ins n` supplies the tick-`n` input values
`(in_freq, in_waveform, rnd)`. -/
def vcoSeq (ops : FloatOps) (ins : ℕ → ℚ × WaveForm × ℚ) (fmin fmax : ℚ) :
    ℕ → VCOst
  | 0 => { vcoDefault with freq_min := fmin, freq_max := fmax }
  | n + 1 =>
      vcoUpdate ops (ins n).2.2 (ins n).1 (ins n).2.1
        (vcoSeq ops ins fmin fmax n)

/-- The five-state envelope generator state enum (`EGState` in
`src/module.rs`). -/
inductive EGState where
  | idle
  | a
  | d
  | s
  | r
deriving DecidableEq

/-- Mutable state of an `EG` unit: the state machine stage, the per-stage
clock (seconds), the captured `level`, and the output. -/
structure EGst where
  state : EGState
  clock : ℚ
  level : ℚ
  out : ℚ

/-- The `Default` instance of `EG`: `Idle`, all numeric fields `0.0`. -/
def egInit : EGst := { state := .idle, clock := 0, level := 0, out := 0 }

/-- Embedding of `EG::update` from `src/module.rs`: the transition match,
then the output match, then `clock += 1.0 / SAMPLES_PER_SEC`. -/
def egUpdate (gate rep : Bool) (a d s r : ℚ) (e : EGst) : EGst :=
  let e1 :=
    match e.state with
    | .idle => if gate || rep then { e with state := .a, clock := 0 } else e
    | .a =>
        if !gate && !rep then { e with state := .r, clock := 0, level := e.out }
        else if a ≤ e.clock then { e with state := .d, clock := 0 }
        else e
    | .d =>
        if !gate && !rep then { e with state := .r, clock := 0, level := e.out }
        else if d ≤ e.clock then { e with state := .s, clock := 0 }
        else e
    | .s =>
        if !gate then { e with state := .r, clock := 0, level := e.out } else e
    | .r =>
        if !gate && r ≤ e.clock then
          { e with state := .idle, clock := 0, level := 0 }
        else if gate then { e with state := .a, clock := 0, level := e.out }
        else e
  let e2 :=
    match e1.state with
    | .idle => { e1 with clock := 0, out := 0 }
    | .a =>
        if 0 < a then { e1 with out := max e1.level (1 / a * e1.clock) } else e1
    | .d =>
        if 0 < d then { e1 with out := 1 - (1 - s) / d * e1.clock } else e1
    | .s => { e1 with out := s }
    | .r =>
        if 0 < r then
          { e1 with out := max 0 (e1.level - e1.clock * e1.level / r) }
        else e1
  { e2 with clock := e2.clock + 1 / 44100 }

/-- EG trajectory with the gate held `true` from the start, beginning at the
default (`Idle`) state.  `rep n` is the `in_repeat` input at tick `n`; the
timing inputs `a d s r` are held constant. -/
def egSeq (rep : ℕ → Bool) (a d s r : ℚ) : ℕ → EGst
  | 0 => egInit
  | n + 1 => egUpdate true (rep n) a d s r (egSeq rep a d s r n)

/-- Mutable state of an `IIRLPF` unit: frequency range, the two circular
delay lines with their write indices, and the output. -/
structure IIRSt where
  freq_min : ℚ
  freq_max : ℚ
  buf_a : List ℚ
  i_a : ℕ
  buf_b : List ℚ
  i_b : ℕ
  out : ℚ

/-- Embedding of the free function `buf_at` from `src/module.rs`:
`n = 0` is the newest sample, larger `n` reaches further into the past,
wrapping through the circular buffer.  Out-of-range reads (impossible in the
uses below) default to `0`. -/
def buf_at (buf : List ℚ) (i n : ℕ) : ℚ :=
  if n < i then buf.getD (i - 1 - n) 0 else buf.getD (buf.length + i - 1 - n) 0

/-- Rust `Vec::resize(n, 0.0)`: truncate to or pad with zeros up to
length `n`. -/
def listResize (l : List ℚ) (n : ℕ) : List ℚ :=
  l.take n ++ List.replicate (n - l.length) 0

/-- Embedding of `IIRLPF::update` from `src/module.rs`, with the coefficient
arrays and the two summation loops unrolled (the arrays have fixed
length 3). -/
def iirlpfUpdate (ops : FloatOps) (in_freq in_resonance in_value : ℚ)
    (st : IIRSt) : IIRSt :=
  let freq := restore_freq ops st.freq_min st.freq_max in_freq
  let fc := freq / 44100
  let q := (0.025 + in_resonance * 9.975) / sqrt2F
  let a0 := 1 + 2 * piF * fc / q + 4 * piF * piF * fc * fc
  let a1 := (8 * piF * piF * fc * fc - 2) / a0
  let a2 := (1 - 2 * piF * fc / q + 4 * piF * piF * fc * fc) / a0
  let b0 := 4 * piF * piF * fc * fc / a0
  let b1 := 8 * piF * piF * fc * fc / a0
  let b2 := 4 * piF * piF * fc * fc / a0
  let buf_a0 := listResize st.buf_a 3
  let buf_b0 := listResize st.buf_b 3
  let buf_b1 := buf_b0.set st.i_b in_value
  let i_b := (st.i_b + 1) % buf_b1.length
  let b_value :=
    b0 * buf_at buf_b1 i_b 0 + b1 * buf_at buf_b1 i_b 1 +
      b2 * buf_at buf_b1 i_b 2
  let a_value :=
    b_value - a1 * buf_at buf_a0 st.i_a 0 - a2 * buf_at buf_a0 st.i_a 1
  let buf_a1 := buf_a0.set st.i_a a_value
  let i_a := (st.i_a + 1) % buf_a1.length
  { st with buf_a := buf_a1, buf_b := buf_b1, i_a := i_a, i_b := i_b,
            out := a_value }

/-- The quality factor the spec attributes to the filter:
`Q = (0.025 + resonance * 9.975) / sqrt 2`. -/
def qOfResonance (resonance : ℚ) : ℚ := (0.025 + resonance * 9.975) / sqrt2F

/-- The denominator coefficient the spec attributes to the filter:
`a0 = 1 + 2 pi fc / Q + 4 pi^2 fc^2`. -/
def a0OfFcQ (fc q : ℚ) : ℚ := 1 + 2 * piF * fc / q + 4 * piF * piF * fc * fc

/-- The `IIRLPF::update` body with the quality factor `q` taken as an
argument and the denominator computed by `a0OfFcQ`; used to state which `Q`
the concrete updates plug into the biquad. -/
def iirlpfUpdateWithQ (ops : FloatOps) (q in_freq in_value : ℚ)
    (st : IIRSt) : IIRSt :=
  let freq := restore_freq ops st.freq_min st.freq_max in_freq
  let fc := freq / 44100
  let a0 := a0OfFcQ fc q
  let a1 := (8 * piF * piF * fc * fc - 2) / a0
  let a2 := (1 - 2 * piF * fc / q + 4 * piF * piF * fc * fc) / a0
  let b0 := 4 * piF * piF * fc * fc / a0
  let b1 := 8 * piF * piF * fc * fc / a0
  let b2 := 4 * piF * piF * fc * fc / a0
  let buf_a0 := listResize st.buf_a 3
  let buf_b0 := listResize st.buf_b 3
  let buf_b1 := buf_b0.set st.i_b in_value
  let i_b := (st.i_b + 1) % buf_b1.length
  let b_value :=
    b0 * buf_at buf_b1 i_b 0 + b1 * buf_at buf_b1 i_b 1 +
      b2 * buf_at buf_b1 i_b 2
  let a_value :=
    b_value - a1 * buf_at buf_a0 st.i_a 0 - a2 * buf_at buf_a0 st.i_a 1
  let buf_a1 := buf_a0.set st.i_a a_value
  let i_a := (st.i_a + 1) % buf_a1.length
  { st with buf_a := buf_a1, buf_b := buf_b1, i_a := i_a, i_b := i_b,
            out := a_value }

/-- Embedding of the older duplicate `IIRLPF::update` in `src/lib.rs`, which
differs from the `src/module.rs` version only in the resonance-to-Q mapping:
`q = (0.5 + in_resonance * 9.5) / 2.0f32.sqrt()`. -/
def iirlpfUpdateLib (ops : FloatOps) (in_freq in_resonance in_value : ℚ)
    (st : IIRSt) : IIRSt :=
  let freq := restore_freq ops st.freq_min st.freq_max in_freq
  let fc := freq / 44100
  let q := (0.5 + in_resonance * 9.5) / sqrt2F
  let a0 := 1 + 2 * piF * fc / q + 4 * piF * piF * fc * fc
  let a1 := (8 * piF * piF * fc * fc - 2) / a0
  let a2 := (1 - 2 * piF * fc / q + 4 * piF * piF * fc * fc) / a0
  let b0 := 4 * piF * piF * fc * fc / a0
  let b1 := 8 * piF * piF * fc * fc / a0
  let b2 := 4 * piF * piF * fc * fc / a0
  let buf_a0 := listResize st.buf_a 3
  let buf_b0 := listResize st.buf_b 3
  let buf_b1 := buf_b0.set st.i_b in_value
  let i_b := (st.i_b + 1) % buf_b1.length
  let b_value :=
    b0 * buf_at buf_b1 i_b 0 + b1 * buf_at buf_b1 i_b 1 +
      b2 * buf_at buf_b1 i_b 2
  let a_value :=
    b_value - a1 * buf_at buf_a0 st.i_a 0 - a2 * buf_at buf_a0 st.i_a 1
  let buf_a1 := buf_a0.set st.i_a a_value
  let i_a := (st.i_a + 1) % buf_a1.length
  { st with buf_a := buf_a1, buf_b := buf_b1, i_a := i_a, i_b := i_b,
            out := a_value }

/-- Mutable state of a `Buf` unit: just the output value. -/
structure BufSt where
  out : ℚ

/-- Embedding of `Buf::update`: `self.out = (self.in_value)(rack, input)`,
with the closure's value supplied as `inVal`. -/
def bufUpdate (inVal : ℚ) (b : BufSt) : BufSt := { b with out := inVal }

/-- A rack of two `Buf` units, as generated by `define_rack`: one `RefCell`
field per declared unit. -/
structure TwoBufRack where
  u1 : BufSt
  u2 : BufSt

/-- The `Rack::update` generated by `define_rack` for the declaration order
`u1` then `u2`: each unit's input closure reads the rack as it stands when
that unit updates. -/
def twoBufUpdateFwd (src1 src2 : TwoBufRack → ℚ → ℚ) (r : TwoBufRack)
    (input : ℚ) : TwoBufRack :=
  let r1 := { r with u1 := bufUpdate (src1 r input) r.u1 }
  { r1 with u2 := bufUpdate (src2 r1 input) r1.u2 }

/-- The `Rack::update` generated by `define_rack` for the reverse declaration
order `u2` then `u1`. -/
def twoBufUpdateRev (src1 src2 : TwoBufRack → ℚ → ℚ) (r : TwoBufRack)
    (input : ℚ) : TwoBufRack :=
  let r1 := { r with u2 := bufUpdate (src2 r input) r.u2 }
  { r1 with u1 := bufUpdate (src1 r1 input) r1.u1 }

/-- Decoded MIDI messages (`src/midi_message.rs`).  Raw bytes are naturals
below 256. -/
inductive MidiMessage where
  | unknown (raw : List ℕ)
  | controlChange (ch num value : ℕ)
  | sysEx (payload : List ℕ)
deriving DecidableEq

/-- Result of `MidiMessage::try_from`: a decoded message, the
`MidiMessageParseError` returned by `get_at`, or a Rust panic (the
out-of-range slice `value[1..0]` reachable in the SysEx branch). -/
inductive ParseResult where
  | ok (m : MidiMessage)
  | err
  | panicked
deriving DecidableEq

/-- Embedding of the free function `get_at`: `Ok(value[index])` when the
index is in range, the parse error otherwise. -/
def get_at (value : List ℕ) (index : ℕ) : Option ℕ := value[index]?

/-- Embedding of `<MidiMessage as TryFrom<&[u8]>>::try_from`. -/
def midiTryFrom (value : List ℕ) : ParseResult :=
  match get_at value 0 with
  | none => .err
  | some status =>
      let kind := status &&& 0xF0
      let ch := status &&& 0x0F
      if kind = 0xB0 then
        match get_at value 1 with
        | none => .err
        | some control =>
            if control ≤ 0x77 then
              match get_at value 2 with
              | none => .err
              | some control_value =>
                  .ok (.controlChange ch control control_value)
            else if control ≤ 0x7F then .ok (.unknown value)
            else .ok (.unknown value)
      else if kind = 0xF0 then
        if value.getLast? = some 0xF7 then
          if value.length < 2 then .panicked
          else .ok (.sysEx ((value.drop 1).dropLast))
        else .ok (.sysEx (value.drop 1))
      else .ok (.unknown value)

/-- The `ButtonMode` enum from `src/input.rs`. -/
inductive ButtonMode where
  | toggle
  | momentary
deriving DecidableEq

/-- Physical control identifiers (`Key` in `src/input.rs`). -/
inductive KeyT where
  | controlChange (n : ℕ)
deriving DecidableEq

/-- The `InputConfig` enum from `src/input.rs`. -/
inductive InputConfig where
  | f32 (name : String)
  | bool (name : String) (mode : ButtonMode)
  | enum (name : String) (values : List String)

/-- The name a config refers to (`InputConfig::name`). -/
def cfgName : InputConfig → String
  | .f32 name => name
  | .bool name _ => name
  | .enum name _ => name

/-- The `FieldAccessor` enum from `src/input.rs`: a typed getter/setter pair
over the parameter struct `S`.  Rust's mutating setters become functions
returning the new state. -/
inductive FieldAccessor (S : Type) where
  | f32 (get : S → ℚ) (set : S → ℚ → S)
  | bool (get : S → Bool) (set : S → Bool → S)
  | enum (get : S → String) (set : S → String → S)

/-- Association-list lookup, the model of `HashMap::get` for maps built by
inserting distinct keys. -/
def alookup {κ β : Type} [DecidableEq κ] : List (κ × β) → κ → Option β
  | [], _ => none
  | (k, v) :: rest, key => if key = k then some v else alookup rest key

/-- Embedding of `StateInput::update_state` from `src/input.rs`.  `sd` is the
state definition (name to accessor), `inputs` the key to `InputConfig` map.
`none` models the `panic!` calls (undefined field, accessor-kind mismatch,
and indexing an empty `values` vector in the Enum arm). -/
def updateState {S : Type} (sd : List (String × FieldAccessor S))
    (inputs : List (KeyT × InputConfig)) (st : S) (key : KeyT) (value : ℕ) :
    Option S :=
  match alookup inputs key with
  | none => some st
  | some cfg =>
      match cfg with
      | .bool name mode =>
          match alookup sd name with
          | some (.bool get set) =>
              let pressed : Bool := decide (0x40 ≤ value)
              match mode with
              | .momentary => some (set st pressed)
              | .toggle =>
                  let current := get st
                  if pressed then some (set st (!current)) else some st
          | _ => none
      | .f32 name =>
          match alookup sd name with
          | some (.f32 _ set) => some (set st ((value : ℚ) / 127))
          | _ => none
      | .enum name values =>
          match alookup sd name with
          | some (.enum get set) =>
              if 0x40 ≤ value then
                let current := get st
                let index :=
                  match List.findIdx? (fun v => v == current) values with
                  | some i => (i + 1) % values.length
                  | none => 0
                match values[index]? with
                | some newVal => some (set st newVal)
                | none => none
              else some st
          | _ => none

/-- Observation of one registry entry on a state: the value its getter
returns, wrapped so the three kinds can be compared uniformly. -/
inductive FVal where
  | q (x : ℚ)
  | b (x : Bool)
  | s (x : String)

/-- Apply an accessor's getter to a state. -/
def observe {S : Type} (acc : FieldAccessor S) (st : S) : FVal :=
  match acc with
  | .f32 get _ => .q (get st)
  | .bool get _ => .b (get st)
  | .enum get _ => .s (get st)

/-- `SimpleEnum::to_name` for `WaveForm`. -/
def waveFormToName : WaveForm → String
  | .sine => "Sine"
  | .triangle => "Triangle"
  | .sawtooth => "Sawtooth"
  | .square => "Square"
  | .noise => "Noise"

/-- `SimpleEnum::from_name` for `WaveForm`. -/
def waveFormFromName : String → Option WaveForm
  | "Sine" => some .sine
  | "Triangle" => some .triangle
  | "Sawtooth" => some .sawtooth
  | "Square" => some .square
  | "Noise" => some .noise
  | _ => none

/-- The `Input` parameter struct declared with `define_input!` in
`src/main.rs`. -/
structure Input where
  vco1_freq : ℚ
  vco1_waveform : WaveForm
  lfo1_freq : ℚ
  lfo1_waveform : WaveForm
  vco1_lfo1_amount : ℚ
  eg1_a : ℚ
  eg1_d : ℚ
  eg1_s : ℚ
  eg1_r : ℚ
  eg1_gate : Bool
  eg1_repeat : Bool
  lpf1_freq : ℚ
  lpf1_resonance : ℚ
  lpf1_lfo1_amount : ℚ

/-- The registry built by `Input::new_state_definition()`: one accessor per
field, in declaration order.  Float and bool fields get plain field
accessors; `WaveForm` fields get the `SimpleEnum` name round-trip accessors
(the setter ignores names that fail `from_name`). -/
def inputStateDefinition : List (String × FieldAccessor Input) :=
  [ ("vco1_freq",
      .f32 (fun st => st.vco1_freq) (fun st v => { st with vco1_freq := v })),
    ("vco1_waveform",
      .enum (fun st => waveFormToName st.vco1_waveform)
        (fun st v =>
          match waveFormFromName v with
          | some w => { st with vco1_waveform := w }
          | none => st)),
    ("lfo1_freq",
      .f32 (fun st => st.lfo1_freq) (fun st v => { st with lfo1_freq := v })),
    ("lfo1_waveform",
      .enum (fun st => waveFormToName st.lfo1_waveform)
        (fun st v =>
          match waveFormFromName v with
          | some w => { st with lfo1_waveform := w }
          | none => st)),
    ("vco1_lfo1_amount",
      .f32 (fun st => st.vco1_lfo1_amount)
        (fun st v => { st with vco1_lfo1_amount := v })),
    ("eg1_a", .f32 (fun st => st.eg1_a) (fun st v => { st with eg1_a := v })),
    ("eg1_d", .f32 (fun st => st.eg1_d) (fun st v => { st with eg1_d := v })),
    ("eg1_s", .f32 (fun st => st.eg1_s) (fun st v => { st with eg1_s := v })),
    ("eg1_r", .f32 (fun st => st.eg1_r) (fun st v => { st with eg1_r := v })),
    ("eg1_gate",
      .bool (fun st => st.eg1_gate) (fun st v => { st with eg1_gate := v })),
    ("eg1_repeat",
      .bool (fun st => st.eg1_repeat)
        (fun st v => { st with eg1_repeat := v })),
    ("lpf1_freq",
      .f32 (fun st => st.lpf1_freq) (fun st v => { st with lpf1_freq := v })),
    ("lpf1_resonance",
      .f32 (fun st => st.lpf1_resonance)
        (fun st v => { st with lpf1_resonance := v })),
    ("lpf1_lfo1_amount",
      .f32 (fun st => st.lpf1_lfo1_amount)
        (fun st v => { st with lpf1_lfo1_amount := v })) ]

/-- The `Default` instance generated by `define_input!` for `Input` in
`src/main.rs`. -/
def inputDefault : Input :=
  { vco1_freq := 1/2, vco1_waveform := .sine, lfo1_freq := 1/2,
    lfo1_waveform := .sine, vco1_lfo1_amount := 0, eg1_a := 1/10,
    eg1_d := 1/20, eg1_s := 4/5, eg1_r := 1/10, eg1_gate := false,
    eg1_repeat := false, lpf1_freq := 1/10, lpf1_resonance := 1/20,
    lpf1_lfo1_amount := 0 }

/-- The bindings installed by `setup_input` in `src/main.rs`, in call
order. -/
def setupInputs : List (KeyT × InputConfig) :=
  [ (.controlChange 0x00, .f32 "lfo1_freq"),
    (.controlChange 0x01, .f32 "vco1_freq"),
    (.controlChange 0x10, .f32 "vco1_lfo1_amount"),
    (.controlChange 0x02, .f32 "eg1_a"),
    (.controlChange 0x12, .f32 "eg1_d"),
    (.controlChange 0x03, .f32 "eg1_s"),
    (.controlChange 0x13, .f32 "eg1_r"),
    (.controlChange 0x04, .f32 "lpf1_freq"),
    (.controlChange 0x14, .f32 "lpf1_resonance"),
    (.controlChange 0x15, .f32 "lpf1_lfo1_amount"),
    (.controlChange 0x20, .enum "lfo1_waveform" ["Sine", "Triangle"]),
    (.controlChange 0x30, .enum "lfo1_waveform" ["Sawtooth"]),
    (.controlChange 0x40, .enum "lfo1_waveform" ["Square", "Noise"]),
    (.controlChange 0x21, .enum "vco1_waveform" ["Sine", "Triangle"]),
    (.controlChange 0x31, .enum "vco1_waveform" ["Sawtooth"]),
    (.controlChange 0x41, .enum "vco1_waveform" ["Square", "Noise"]),
    (.controlChange 0x32, .bool "eg1_repeat" .toggle),
    (.controlChange 0x42, .bool "eg1_gate" .momentary) ]

/-- The `MyRack` declared with `define_rack!` in `src/main.rs`: one unit
state per declared unit, in declaration order. -/
structure MyRack where
  lfo1 : VCOst
  vco1 : VCOst
  eg1 : EGst
  vca1 : BufSt
  lpf1 : IIRSt

/-- One tick of `MyRack::update`: the units update in declaration order
(`lfo1`, `vco1`, `eg1`, `vca1`, `lpf1`), each input closure evaluated
against the rack as it stands at that point, exactly as in the
`define_rack!` block of `src/main.rs`. -/
def myRackUpdate (ops : FloatOps) (rndLfo rndVco : ℚ) (input : Input)
    (r : MyRack) : MyRack :=
  let r := { r with
    lfo1 := vcoUpdate ops rndLfo input.lfo1_freq input.lfo1_waveform r.lfo1 }
  let r := { r with
    vco1 := vcoUpdate ops rndVco
      (r.lfo1.out * input.vco1_lfo1_amount + input.vco1_freq)
      input.vco1_waveform r.vco1 }
  let r := { r with
    eg1 := egUpdate input.eg1_gate input.eg1_repeat input.eg1_a input.eg1_d
      input.eg1_s input.eg1_r r.eg1 }
  let r := { r with vca1 := bufUpdate (r.vco1.out * r.eg1.out) r.vca1 }
  let r := { r with
    lpf1 := iirlpfUpdate ops
      (input.lpf1_freq + input.lpf1_lfo1_amount * r.lfo1.out)
      input.lpf1_resonance r.vca1.out r.lpf1 }
  r

/-- Concrete float-operation instance for witnesses: identity `exp`/`ln`/
`sin` (so `restore_freq opsId min max x` is `min + x * (max - min)`). -/
def opsId : FloatOps := { sinF := fun x => x, expF := fun x => x, lnF := fun x => x }

/-- Concrete float-operation instance whose operations are constantly 0. -/
def opsZero : FloatOps := { sinF := fun _ => 0, expF := fun _ => 0, lnF := fun _ => 0 }

/-- A freshly constructed filter state (empty delay lines, as in the
`Default` instance, with the `main.rs` frequency range). -/
def stIIR0 : IIRSt :=
  { freq_min := 100, freq_max := 200, buf_a := [], i_a := 0, buf_b := [],
    i_b := 0, out := 0 }

/-- One-entry registry over a bare `Bool` state, for witnesses. -/
def sdBool0 : List (String × FieldAccessor Bool) :=
  [("g", .bool (fun b => b) (fun _ b => b))]

/-- One toggle binding for the `sdBool0` registry. -/
def inputsBool0 : List (KeyT × InputConfig) :=
  [(.controlChange 9, .bool "g" .toggle)]

/-- One-entry registry over a bare `String` state, for witnesses. -/
def sdStr0 : List (String × FieldAccessor String) :=
  [("w", .enum (fun v => v) (fun _ v => v))]

/-- One enum binding with values A, B, C for the `sdStr0` registry. -/
def inputsStr0 : List (KeyT × InputConfig) :=
  [(.controlChange 7, .enum "w" ["A", "B", "C"])]

/-- A release-phase EG state for witnesses. -/
def egRelease0 : EGst := { state := .r, clock := 0, level := 1/2, out := 1/3 }

/-- C1 (rack evaluation order): with producer `u1` (reading the external
input through `f`) declared before consumer `u2` (reading `u1.out`), one
`update` lets `u2` see `u1`'s output of the same tick (`f x`); with the
declaration order reversed, `u2` sees `u1`'s output left over from the
previous tick (`r.u1.out`).  In `MyRack`, `vca1` (declared after `vco1` and
`eg1`) likewise sees their same-tick outputs. -/
theorem c1_rack_declared_order_coupling :
    ∀ (f : ℚ → ℚ) (r : TwoBufRack) (x : ℚ),
      ((twoBufUpdateFwd (fun _ inp => f inp) (fun rk _ => rk.u1.out) r x).u2.out
            = f x
        ∧ (twoBufUpdateFwd (fun _ inp => f inp) (fun rk _ => rk.u1.out) r x).u1.out
            = f x)
      ∧ (twoBufUpdateRev (fun _ inp => f inp) (fun rk _ => rk.u1.out) r x).u2.out
          = r.u1.out
      ∧ ∀ (ops : FloatOps) (rndLfo rndVco : ℚ) (input : Input) (mr : MyRack),
          (myRackUpdate ops rndLfo rndVco input mr).vca1.out
            = (myRackUpdate ops rndLfo rndVco input mr).vco1.out
              * (myRackUpdate ops rndLfo rndVco input mr).eg1.out :=
  fun _ _ _ => ⟨⟨rfl, rfl⟩, rfl, fun _ _ _ _ _ => rfl⟩

/-- C3 (EG retrigger during release): an EG in the Release state receiving a
true gate transitions to Attack and captures `level` from the output value
the release phase last produced, not 0 and not 1. -/
theorem c3_eg_retrigger_during_release :
    ∀ (e : EGst) (rep : Bool) (a d s r : ℚ),
      e.state = .r → e.clock < r →
      (egUpdate true rep a d s r e).state = .a
        ∧ (egUpdate true rep a d s r e).level = e.out := by
  intro e rep a d s r hst _
  rcases e with ⟨st, clk, lvl, o⟩
  subst hst
  by_cases ha : (0 : ℚ) < a <;> simp [egUpdate, ha]

/-- Witness for C3 at a concrete release-phase state: level is captured as
the previous output 1/3. -/
theorem c3_eg_retrigger_during_release_witness :
    egRelease0.state = .r ∧ egRelease0.clock < 1 ∧
      (egUpdate true false 1 1 1 1 egRelease0).state = .a ∧
      (egUpdate true false 1 1 1 1 egRelease0).level = egRelease0.out :=
  ⟨rfl, by norm_num [egRelease0],
    (c3_eg_retrigger_during_release egRelease0 false 1 1 1 1 rfl
      (by norm_num [egRelease0])).1,
    (c3_eg_retrigger_during_release egRelease0 false 1 1 1 1 rfl
      (by norm_num [egRelease0])).2⟩

/-- C9, amended (filter Q mapping): the `src/module.rs` filter maps the
resonance input to `Q = (0.025 + r * 9.975) / sqrt 2` and plugs exactly that
`Q` into the denominator `a0 = 1 + 2 pi fc / Q + 4 pi^2 fc^2` of the biquad
recomputed each sample; the duplicate filter in `src/lib.rs` instead uses
`Q = (0.5 + r * 9.5) / sqrt 2`. -/
theorem c9_iirlpf_q_mapping :
    (∀ (ops : FloatOps) (in_freq in_resonance in_value : ℚ) (st : IIRSt),
        iirlpfUpdate ops in_freq in_resonance in_value st
          = iirlpfUpdateWithQ ops (qOfResonance in_resonance) in_freq
              in_value st)
    ∧ (∀ (ops : FloatOps) (in_freq in_resonance in_value : ℚ) (st : IIRSt),
        iirlpfUpdateLib ops in_freq in_resonance in_value st
          = iirlpfUpdateWithQ ops ((0.5 + in_resonance * 9.5) / sqrt2F)
              in_freq in_value st) :=
  ⟨fun _ _ _ _ _ => rfl, fun _ _ _ _ _ => rfl⟩

/-- Counterexample to C9 as stated: the repository contains a second
`IIRLPF::update` (in `src/lib.rs`) whose output on a concrete input differs
from what the claimed mapping `Q = (0.025 + r * 9.975) / sqrt 2` produces,
so not every IIRLPF update uses that Q. -/
theorem c9_counterexample :
    (iirlpfUpdateLib opsId 0 0 1 stIIR0).out
      ≠ (iirlpfUpdateWithQ opsId (qOfResonance 0) 0 1 stIIR0).out := by
  norm_num [iirlpfUpdateLib, iirlpfUpdateWithQ, qOfResonance, a0OfFcQ,
    restore_freq, opsId, stIIR0, listResize, buf_at, piF, sqrt2F,
    List.getD, List.set]

/-- C7 (end to end): decoding the bytes B0 01 7F yields a control change on
channel 0, controller 1, value 0x7F, and running that key and value through
`update_state` with the `main.rs` registry and bindings sets `vco1_freq` to
exactly 1 (127/127), whatever its previous value. -/
theorem c7_cc1_sets_vco1_freq :
    ∀ st : Input,
      midiTryFrom [0xB0, 0x01, 0x7F] = .ok (.controlChange 0 0x01 0x7F)
        ∧ ∃ st', updateState inputStateDefinition setupInputs st
              (KeyT.controlChange 0x01) 0x7F = some st'
            ∧ st'.vco1_freq = 1 := by
  intro st
  refine ⟨by decide,
    { st with vco1_freq := (0x7F : ℚ) / 127 }, ?_, by norm_num⟩
  simp [updateState, alookup, setupInputs, inputStateDefinition]

/-- C6 (MIDI decode errors and classification): `try_from` returns the parse
error exactly when the input is empty, or the status high nibble is 0xB0 and
the controller byte is missing, or the controller is at most 0x77 and the
value byte is missing; a complete control change with controller at most
0x77 decodes to `ControlChange` with the status low nibble as channel; and a
0xB0-status message with controller 0x78 to 0x7F decodes to `Unknown`
carrying the raw bytes. -/
theorem c6_midi_decode :
    (∀ bytes : List ℕ,
      midiTryFrom bytes = .err ↔
        bytes = []
        ∨ ∃ status, bytes[0]? = some status ∧ status &&& 0xF0 = 0xB0
            ∧ (bytes[1]? = none
                ∨ ∃ c, bytes[1]? = some c ∧ c ≤ 0x77 ∧ bytes[2]? = none))
    ∧ (∀ (status c v : ℕ) (rest : List ℕ),
        status &&& 0xF0 = 0xB0 → c ≤ 0x77 →
        midiTryFrom (status :: c :: v :: rest)
          = .ok (.controlChange (status &&& 0x0F) c v))
    ∧ (∀ (status c : ℕ) (rest : List ℕ),
        status &&& 0xF0 = 0xB0 → 0x78 ≤ c → c ≤ 0x7F →
        midiTryFrom (status :: c :: rest)
          = .ok (.unknown (status :: c :: rest))) := by
  refine ⟨?_, ?_, ?_⟩
  · intro bytes
    rcases bytes with _ | ⟨s, _ | ⟨c, _ | ⟨v, rest⟩⟩⟩
    · simp [midiTryFrom, get_at]
    · by_cases hB : s &&& 0xF0 = 0xB0
      · simp [midiTryFrom, get_at, hB]
      · by_cases hF : s &&& 0xF0 = 0xF0
        · by_cases hs : s = 0xF7
          · subst hs
            decide
          · simp [midiTryFrom, get_at, hB, hF, hs]
        · simp [midiTryFrom, get_at, hB, hF]
    · by_cases hB : s &&& 0xF0 = 0xB0
      · by_cases hc : c ≤ 0x77 <;> simp [midiTryFrom, get_at, hB, hc]
      · by_cases hF : s &&& 0xF0 = 0xF0
        · by_cases hcF : c = 0xF7 <;>
            simp [midiTryFrom, get_at, hB, hF, hcF]
        · simp [midiTryFrom, get_at, hB, hF]
    · by_cases hB : s &&& 0xF0 = 0xB0
      · by_cases hc : c ≤ 0x77 <;> simp [midiTryFrom, get_at, hB, hc]
      · by_cases hF : s &&& 0xF0 = 0xF0
        · simp only [midiTryFrom, get_at, hB, hF, if_true, if_false,
            reduceIte]
          split_ifs <;> simp_all
        · simp [midiTryFrom, get_at, hB, hF]
  · intro status c v rest hB hc
    simp [midiTryFrom, get_at, hB, hc]
  · intro status c rest hB hc1 hc2
    have hnc : ¬ c ≤ 0x77 := by omega
    simp [midiTryFrom, get_at, hB, hnc, hc2]

/-- Witness for C6 at a complete control-change message on channel 1. -/
theorem c6_midi_decode_witness :
    (0xB1 &&& 0xF0 = 0xB0) ∧ (5 ≤ 0x77) ∧
      midiTryFrom [0xB1, 5, 9]
        = .ok (.controlChange (0xB1 &&& 0x0F) 5 9) :=
  ⟨by decide, by decide,
    c6_midi_decode.2.1 0xB1 5 9 [] (by decide) (by decide)⟩

/-- C4 (button modes): for a key bound to a boolean field, Toggle flips the
field on every press (value byte at least 0x40) and leaves it untouched on
release; Momentary makes the field track the pressed predicate. -/
theorem c4_button_modes {S : Type} (sd : List (String × FieldAccessor S))
    (inputs : List (KeyT × InputConfig)) (key : KeyT) (name : String)
    (mode : ButtonMode) (get : S → Bool) (set : S → Bool → S)
    (hbind : alookup inputs key = some (.bool name mode))
    (hfield : alookup sd name = some (.bool get set))
    (hlens : ∀ st b, get (set st b) = b) :
    ∀ (st : S) (v : ℕ),
      (mode = .toggle → 0x40 ≤ v →
        ∃ st', updateState sd inputs st key v = some st'
          ∧ get st' = !(get st))
      ∧ (mode = .toggle → v < 0x40 →
          updateState sd inputs st key v = some st)
      ∧ (mode = .momentary →
          ∃ st', updateState sd inputs st key v = some st'
            ∧ (get st' = true ↔ 0x40 ≤ v)) := by
  intro st v
  refine ⟨?_, ?_, ?_⟩
  · rintro rfl hv
    refine ⟨set st (!(get st)), ?_, hlens st (!(get st))⟩
    simp [updateState, hbind, hfield, hv]
  · rintro rfl hv
    have hnv : ¬ (0x40 ≤ v) := by omega
    simp [updateState, hbind, hfield, hnv]
  · rintro rfl
    refine ⟨set st (decide (0x40 ≤ v)), ?_, ?_⟩
    · simp [updateState, hbind, hfield]
    · simp [hlens]

/-- Witness for C4: a Toggle press on a one-field boolean state flips the
field from false to true. -/
theorem c4_button_modes_witness :
    ((0x40 : ℕ) ≤ 0x40) ∧
      ∃ st', updateState sdBool0 inputsBool0 false (KeyT.controlChange 9) 0x40
          = some st' ∧ st' = true :=
  ⟨le_refl _,
    (c4_button_modes sdBool0 inputsBool0 (KeyT.controlChange 9) "g"
        .toggle (fun b => b) (fun _ b => b) rfl rfl (fun _ _ => rfl)
        false 0x40).1 rfl (le_refl _)⟩

/-- C5 (enum cycling): for a key bound to an enum field, a press advances
the field to the entry after the first occurrence of its current value in
the configured list, wrapping modulo the list length (so index 0 follows the
last element); if the current value does not occur, the press installs the
list's first element; a release changes nothing. -/
theorem c5_enum_cycling {S : Type} (sd : List (String × FieldAccessor S))
    (inputs : List (KeyT × InputConfig)) (key : KeyT) (name : String)
    (values : List String) (get : S → String) (set : S → String → S)
    (hbind : alookup inputs key = some (.enum name values))
    (hfield : alookup sd name = some (.enum get set))
    (hlens : ∀ st v, get (set st v) = v)
    (hval : values ≠ []) :
    ∀ (st : S) (v : ℕ),
      (∀ i, 0x40 ≤ v →
        List.findIdx? (fun x => x == get st) values = some i →
        ∃ st', updateState sd inputs st key v = some st'
          ∧ values[(i + 1) % values.length]? = some (get st'))
      ∧ (0x40 ≤ v →
          List.findIdx? (fun x => x == get st) values = none →
          ∃ st', updateState sd inputs st key v = some st'
            ∧ values[0]? = some (get st'))
      ∧ (v < 0x40 → updateState sd inputs st key v = some st) := by
  intro st v
  have hlen : 0 < values.length := List.length_pos.mpr hval
  refine ⟨?_, ?_, ?_⟩
  · intro i hv hfind
    have hidx : (i + 1) % values.length < values.length :=
      Nat.mod_lt _ hlen
    obtain ⟨w, hw⟩ : ∃ w, values[(i + 1) % values.length]? = some w :=
      ⟨_, List.getElem?_eq_getElem hidx⟩
    refine ⟨set st w, ?_, ?_⟩
    · simp [updateState, hbind, hfield, hv, hfind, hw]
    · rw [hlens]
      exact hw
  · intro hv hfind
    obtain ⟨w, hw⟩ : ∃ w, values[0]? = some w :=
      ⟨_, List.getElem?_eq_getElem hlen⟩
    refine ⟨set st w, ?_, ?_⟩
    · simp [updateState, hbind, hfield, hv, hfind, hw]
    · rw [hlens]
      exact hw
  · intro hv
    have hnv : ¬ (0x40 ≤ v) := by omega
    simp [updateState, hbind, hfield, hnv]

/-- Witness for C5: over values A, B, C with current value B, a press moves
the field to C (the spec's own worked example). -/
theorem c5_enum_cycling_witness :
    ((0x40 : ℕ) ≤ 0x7F) ∧
      List.findIdx? (fun x => x == "B") ["A", "B", "C"] = some 1 ∧
      ∃ st', updateState sdStr0 inputsStr0 "B" (KeyT.controlChange 7) 0x7F
          = some st' ∧ ["A", "B", "C"][(1 + 1) % 3]? = some st' :=
  ⟨by norm_num, rfl,
    (c5_enum_cycling sdStr0 inputsStr0 (KeyT.controlChange 7) "w"
        ["A", "B", "C"] (fun x => x) (fun _ x => x) rfl rfl (fun _ _ => rfl)
        (by simp) "B" 0x7F).1 1 (by norm_num) rfl⟩

/-- Remainder range lemma for the Rust float remainder: for a nonnegative
dividend and positive divisor the result lies in `[0, y)`. -/
theorem rustRem_nonneg_lt (x y : ℚ) (hx : 0 ≤ x) (hy : 0 < y) :
    0 ≤ rustRem x y ∧ rustRem x y < y := by
  have hq : 0 ≤ x / y := div_nonneg hx hy.le
  have hne : y ≠ 0 := ne_of_gt hy
  have heq : rustRem x y = y * Int.fract (x / y) := by
    rw [rustRem, ratTrunc, if_pos hq, Int.fract, mul_sub,
      mul_div_cancel₀ x hne]
  refine ⟨?_, ?_⟩
  · rw [heq]
    exact mul_nonneg hy.le (Int.fract_nonneg _)
  · rw [heq]
    calc y * Int.fract (x / y) < y * 1 :=
          mul_lt_mul_of_pos_left (Int.fract_lt_one _) hy
      _ = y := mul_one y

/-- C8 (VCO phase invariant): whenever the computed frequency is
nonnegative, one update keeps the phase accumulator inside `[0, 2 pi)`, and
hence every trajectory from the default phase 0 stays inside `[0, 2 pi)`
under any sequence of inputs with nonnegative computed frequencies. -/
theorem c8_vco_phase_invariant (ops : FloatOps) :
    (∀ (v : VCOst) (rnd in_freq : ℚ) (wf : WaveForm),
        0 ≤ restore_freq ops v.freq_min v.freq_max in_freq →
        0 ≤ v.phase → v.phase < piF * 2 →
        0 ≤ (vcoUpdate ops rnd in_freq wf v).phase
          ∧ (vcoUpdate ops rnd in_freq wf v).phase < piF * 2)
    ∧ ∀ (ins : ℕ → ℚ × WaveForm × ℚ) (fmin fmax : ℚ),
        (∀ n, 0 ≤ restore_freq ops fmin fmax (ins n).1) →
        ∀ n, 0 ≤ (vcoSeq ops ins fmin fmax n).phase
          ∧ (vcoSeq ops ins fmin fmax n).phase < piF * 2 := by
  have hpi : (0 : ℚ) < piF * 2 := by norm_num [piF]
  have step : ∀ (v : VCOst) (rnd in_freq : ℚ) (wf : WaveForm),
      0 ≤ restore_freq ops v.freq_min v.freq_max in_freq →
      0 ≤ v.phase → v.phase < piF * 2 →
      0 ≤ (vcoUpdate ops rnd in_freq wf v).phase
        ∧ (vcoUpdate ops rnd in_freq wf v).phase < piF * 2 := by
    intro v rnd inf wf hfreq hp0 _
    have harg : 0 ≤ v.phase +
        restore_freq ops v.freq_min v.freq_max inf * (piF * 2) / 44100 :=
      add_nonneg hp0 (div_nonneg (mul_nonneg hfreq hpi.le) (by norm_num))
    exact rustRem_nonneg_lt _ _ harg hpi
  refine ⟨step, ?_⟩
  intro ins fmin fmax hall n
  have hpres : ∀ m, (vcoSeq ops ins fmin fmax m).freq_min = fmin
      ∧ (vcoSeq ops ins fmin fmax m).freq_max = fmax := by
    intro m
    induction m with
    | zero => exact ⟨rfl, rfl⟩
    | succ k ih => exact ih
  induction n with
  | zero => exact ⟨le_refl 0, hpi⟩
  | succ k ih =>
      have hf : 0 ≤ restore_freq ops (vcoSeq ops ins fmin fmax k).freq_min
          (vcoSeq ops ins fmin fmax k).freq_max (ins k).1 := by
        rw [(hpres k).1, (hpres k).2]
        exact hall k
      exact step _ _ _ _ hf ih.1 ih.2

/-- Witness for C8 at the default VCO with zero float operations: the phase
after one update stays in `[0, 2 pi)`. -/
theorem c8_vco_phase_invariant_witness :
    0 ≤ restore_freq opsZero vcoDefault.freq_min vcoDefault.freq_max 0
      ∧ 0 ≤ vcoDefault.phase ∧ vcoDefault.phase < piF * 2
      ∧ (0 ≤ (vcoUpdate opsZero 0 0 .sine vcoDefault).phase
          ∧ (vcoUpdate opsZero 0 0 .sine vcoDefault).phase < piF * 2) :=
  ⟨le_refl 0, le_refl 0, by norm_num [vcoDefault, piF],
    (c8_vco_phase_invariant opsZero).1 vcoDefault 0 0 .sine (le_refl 0)
      (le_refl 0) (by norm_num [vcoDefault, piF])⟩

/-- With the gate held, an Attack-stage EG whose clock has not yet reached
`a` stays in Attack: only the output and the clock change. -/
theorem egUpdate_stayA (e : EGst) (rep : Bool) (a d s r : ℚ)
    (hst : e.state = .a) (ha : 0 < a) (hnle : ¬ a ≤ e.clock) :
    egUpdate true rep a d s r e =
      { e with out := max e.level (1 / a * e.clock),
               clock := e.clock + 1 / 44100 } := by
  simp [egUpdate, hst, hnle, ha]

/-- With the gate held, an Attack-stage EG whose clock has reached `a` moves
to Decay with a reset clock and output 1. -/
theorem egUpdate_AtoD (e : EGst) (rep : Bool) (a d s r : ℚ)
    (hst : e.state = .a) (hd : 0 < d) (hge : a ≤ e.clock) :
    egUpdate true rep a d s r e =
      { e with state := .d, clock := 1 / 44100, out := 1 } := by
  simp [egUpdate, hst, hge, hd]

/-- With the gate held, a Decay-stage EG whose clock has not yet reached `d`
stays in Decay. -/
theorem egUpdate_stayD (e : EGst) (rep : Bool) (a d s r : ℚ)
    (hst : e.state = .d) (hd : 0 < d) (hnle : ¬ d ≤ e.clock) :
    egUpdate true rep a d s r e =
      { e with out := 1 - (1 - s) / d * e.clock,
               clock := e.clock + 1 / 44100 } := by
  simp [egUpdate, hst, hnle, hd]

/-- With the gate held, a Decay-stage EG whose clock has reached `d` moves
to Sustain, with output exactly the sustain input. -/
theorem egUpdate_DtoS (e : EGst) (rep : Bool) (a d s r : ℚ)
    (hst : e.state = .d) (hge : d ≤ e.clock) :
    egUpdate true rep a d s r e =
      { e with state := .s, clock := 1 / 44100, out := s } := by
  simp [egUpdate, hst, hge]

/-- With the gate held, a Sustain-stage EG stays in Sustain with output the
sustain input. -/
theorem egUpdate_stayS (e : EGst) (rep : Bool) (a d s r : ℚ)
    (hst : e.state = .s) :
    egUpdate true rep a d s r e =
      { e with out := s, clock := e.clock + 1 / 44100 } := by
  simp [egUpdate, hst]

/-- C2, amended (EG reaches Sustain): with attack and decay times positive
and the gate held true, after `ceil (44100 a) + ceil (44100 d) + 1` updates
(one or two samples more than `a + d` seconds when the stage boundaries do
not fall on sample points) the EG is in Sustain and its output is exactly
the sustain input. -/
theorem c2_eg_reaches_sustain (a d s r : ℚ) (rep : ℕ → Bool)
    (ha : 0 < a) (hd : 0 < d) :
    ∀ n, ⌈(44100 : ℚ) * a⌉₊ + ⌈(44100 : ℚ) * d⌉₊ + 1 ≤ n →
      (egSeq rep a d s r n).state = .s ∧ (egSeq rep a d s r n).out = s := by
  set Na := ⌈(44100 : ℚ) * a⌉₊ with hNa
  set Nd := ⌈(44100 : ℚ) * d⌉₊ with hNd
  have hNa1 : 1 ≤ Na := Nat.ceil_pos.mpr (by positivity)
  have hNd1 : 1 ≤ Nd := Nat.ceil_pos.mpr (by positivity)
  -- Attack phase: for the first Na updates the EG sits in Attack with
  -- clock m/44100 after the m-th update and level 0.
  have hA : ∀ m, m + 1 ≤ Na →
      (egSeq rep a d s r (m + 1)).state = .a
        ∧ (egSeq rep a d s r (m + 1)).clock = ((m : ℚ) + 1) / 44100
        ∧ (egSeq rep a d s r (m + 1)).level = 0 := by
    intro m
    induction m with
    | zero =>
        intro _
        refine ⟨?_, ?_, ?_⟩ <;> norm_num [egSeq, egInit, egUpdate, ha]
    | succ k ih =>
        intro hk
        obtain ⟨hst, hclk, hlvl⟩ := ih (by omega)
        have hlt : ((k : ℚ) + 1) < 44100 * a := by
          have hk2 : k + 1 < Na := by omega
          have hcast := Nat.lt_ceil.mp (hNa ▸ hk2)
          push_cast at hcast
          linarith
        have hnle : ¬ a ≤ (egSeq rep a d s r (k + 1)).clock := by
          rw [hclk, not_le, div_lt_iff₀ (by norm_num : (0 : ℚ) < 44100)]
          linarith
        have hrec : egSeq rep a d s r (k + 1 + 1)
            = egUpdate true (rep (k + 1)) a d s r (egSeq rep a d s r (k + 1)) :=
          rfl
        rw [hrec, egUpdate_stayA _ _ _ _ _ _ hst ha hnle]
        refine ⟨hst, ?_, hlvl⟩
        rw [hclk]
        push_cast
        ring
  -- Transition into Decay at update Na + 1.
  have hD1 : (egSeq rep a d s r (Na + 1)).state = .d
      ∧ (egSeq rep a d s r (Na + 1)).clock = (1 : ℚ) / 44100
      ∧ (egSeq rep a d s r (Na + 1)).level = 0 := by
    obtain ⟨hst, hclk, hlvl⟩ := hA (Na - 1) (by omega)
    have hexp : Na - 1 + 1 = Na := by omega
    rw [hexp] at hst hclk hlvl
    have hge : a ≤ (egSeq rep a d s r Na).clock := by
      rw [hclk, le_div_iff₀ (by norm_num : (0 : ℚ) < 44100)]
      have hle := Nat.le_ceil ((44100 : ℚ) * a)
      rw [← hNa] at hle
      have hcast : ((Na - 1 : ℕ) : ℚ) + 1 = (Na : ℚ) := by
        have : ((Na - 1 : ℕ) : ℚ) = (Na : ℚ) - 1 := by
          push_cast [Nat.cast_sub hNa1]
          ring
        rw [this]
        ring
      rw [hcast]
      linarith
    have hrec : egSeq rep a d s r (Na + 1)
        = egUpdate true (rep Na) a d s r (egSeq rep a d s r Na) := rfl
    rw [hrec, egUpdate_AtoD _ _ _ _ _ _ hst hd hge]
    exact ⟨rfl, rfl, hlvl⟩
  -- Decay phase: for the next Nd updates the EG sits in Decay.
  have hD : ∀ m, m + 1 ≤ Nd →
      (egSeq rep a d s r (Na + (m + 1))).state = .d
        ∧ (egSeq rep a d s r (Na + (m + 1))).clock = ((m : ℚ) + 1) / 44100 := by
    intro m
    induction m with
    | zero =>
        intro _
        exact ⟨hD1.1, by rw [hD1.2.1]; norm_num⟩
    | succ k ih =>
        intro hk
        obtain ⟨hst, hclk⟩ := ih (by omega)
        have hlt : ((k : ℚ) + 1) < 44100 * d := by
          have hk2 : k + 1 < Nd := by omega
          have hcast := Nat.lt_ceil.mp (hNd ▸ hk2)
          push_cast at hcast
          linarith
        have hnle : ¬ d ≤ (egSeq rep a d s r (Na + (k + 1))).clock := by
          rw [hclk, not_le, div_lt_iff₀ (by norm_num : (0 : ℚ) < 44100)]
          linarith
        have hrec : egSeq rep a d s r (Na + (k + 1 + 1))
            = egUpdate true (rep (Na + (k + 1))) a d s r
                (egSeq rep a d s r (Na + (k + 1))) := rfl
        rw [hrec, egUpdate_stayD _ _ _ _ _ _ hst hd hnle]
        refine ⟨hst, ?_⟩
        rw [hclk]
        push_cast
        ring
  -- Transition into Sustain at update Na + Nd + 1.
  have hS1 : (egSeq rep a d s r (Na + Nd + 1)).state = .s
      ∧ (egSeq rep a d s r (Na + Nd + 1)).out = s := by
    obtain ⟨hst, hclk⟩ := hD (Nd - 1) (by omega)
    have hexp : Na + (Nd - 1 + 1) = Na + Nd := by omega
    rw [hexp] at hst hclk
    have hge : d ≤ (egSeq rep a d s r (Na + Nd)).clock := by
      rw [hclk, le_div_iff₀ (by norm_num : (0 : ℚ) < 44100)]
      have hle := Nat.le_ceil ((44100 : ℚ) * d)
      rw [← hNd] at hle
      have hcast : ((Nd - 1 : ℕ) : ℚ) + 1 = (Nd : ℚ) := by
        have : ((Nd - 1 : ℕ) : ℚ) = (Nd : ℚ) - 1 := by
          push_cast [Nat.cast_sub hNd1]
          ring
        rw [this]
        ring
      rw [hcast]
      linarith
    have hrec : egSeq rep a d s r (Na + Nd + 1)
        = egUpdate true (rep (Na + Nd)) a d s r
            (egSeq rep a d s r (Na + Nd)) := rfl
    rw [hrec, egUpdate_DtoS _ _ _ _ _ _ hst hge]
    exact ⟨rfl, rfl⟩
  -- Sustain is absorbing while the gate is held.
  have hS : ∀ k, (egSeq rep a d s r (Na + Nd + 1 + k)).state = .s
      ∧ (egSeq rep a d s r (Na + Nd + 1 + k)).out = s := by
    intro k
    induction k with
    | zero => exact hS1
    | succ j ih =>
        have hrec : egSeq rep a d s r (Na + Nd + 1 + (j + 1))
            = egUpdate true (rep (Na + Nd + 1 + j)) a d s r
                (egSeq rep a d s r (Na + Nd + 1 + j)) := rfl
        rw [hrec, egUpdate_stayS _ _ _ _ _ _ ih.1]
        exact ⟨ih.1, rfl⟩
  intro n hn
  have hsplit : n = Na + Nd + 1 + (n - (Na + Nd + 1)) := by omega
  rw [hsplit]
  exact hS _

/-- Counterexample to C2 as stated: with attack and decay both one sample
long (1/44100 s) and sustain 4/5, two updates cover `a + d` seconds of gate,
yet after those two updates the EG is still in Decay with output 1, not in
Sustain with output 4/5. -/
theorem c2_counterexample :
    (44100 : ℚ) * (1 / 44100 + 1 / 44100) ≤ ((2 : ℕ) : ℚ)
      ∧ ¬ ((egSeq (fun _ => false) (1 / 44100) (1 / 44100) (4 / 5) 0 2).state
              = .s
            ∧ (egSeq (fun _ => false) (1 / 44100) (1 / 44100) (4 / 5) 0 2).out
              = 4 / 5) := by
  refine ⟨by norm_num, ?_⟩
  have hst : (egSeq (fun _ => false) (1 / 44100) (1 / 44100) (4 / 5) 0 2).state
      = .d := by
    norm_num [egSeq, egUpdate, egInit]
  rw [not_and]
  rw [hst]
  intro hcontra
  exact absurd hcontra (by simp)

/-- Witness for the amended C2 at one-sample attack and decay: three updates
reach Sustain with output exactly 4/5. -/
theorem c2_eg_reaches_sustain_witness :
    (0 : ℚ) < 1 / 44100
      ∧ ⌈(44100 : ℚ) * (1 / 44100)⌉₊ + ⌈(44100 : ℚ) * (1 / 44100)⌉₊ + 1 ≤ 3
      ∧ (egSeq (fun _ => false) (1 / 44100) (1 / 44100) (4 / 5) 0 3).state
          = .s
      ∧ (egSeq (fun _ => false) (1 / 44100) (1 / 44100) (4 / 5) 0 3).out
          = 4 / 5 := by
  have hceil : ⌈(44100 : ℚ) * (1 / 44100)⌉₊ = 1 := by
    rw [show (44100 : ℚ) * (1 / 44100) = 1 by norm_num]
    simp
  have hmain := c2_eg_reaches_sustain (1 / 44100) (1 / 44100) (4 / 5) 0
    (fun _ => false) (by norm_num) (by norm_num) 3 (by rw [hceil])
  exact ⟨by norm_num, by rw [hceil], hmain.1, hmain.2⟩

/-- Setting `vco1_freq` leaves every other registry entry's value
unchanged. -/
theorem frame_vco1_freq (st : Input) (x : ℚ) :
    ∀ (fname : String) (acc : FieldAccessor Input),
      (fname, acc) ∈ inputStateDefinition → "vco1_freq" ≠ fname →
      observe acc { st with vco1_freq := x } = observe acc st := by
  intro fname acc hmem hne
  simp [inputStateDefinition] at hmem
  rcases hmem with h | h | h | h | h | h | h | h | h | h | h | h | h | h <;>
    obtain ⟨rfl, rfl⟩ := h <;>
    first
      | rfl
      | exact absurd rfl hne

/-- Setting `vco1_waveform` leaves every other registry entry's value
unchanged. -/
theorem frame_vco1_waveform (st : Input) (x : WaveForm) :
    ∀ (fname : String) (acc : FieldAccessor Input),
      (fname, acc) ∈ inputStateDefinition → "vco1_waveform" ≠ fname →
      observe acc { st with vco1_waveform := x } = observe acc st := by
  intro fname acc hmem hne
  simp [inputStateDefinition] at hmem
  rcases hmem with h | h | h | h | h | h | h | h | h | h | h | h | h | h <;>
    obtain ⟨rfl, rfl⟩ := h <;>
    first
      | rfl
      | exact absurd rfl hne

/-- Setting `lfo1_freq` leaves every other registry entry's value
unchanged. -/
theorem frame_lfo1_freq (st : Input) (x : ℚ) :
    ∀ (fname : String) (acc : FieldAccessor Input),
      (fname, acc) ∈ inputStateDefinition → "lfo1_freq" ≠ fname →
      observe acc { st with lfo1_freq := x } = observe acc st := by
  intro fname acc hmem hne
  simp [inputStateDefinition] at hmem
  rcases hmem with h | h | h | h | h | h | h | h | h | h | h | h | h | h <;>
    obtain ⟨rfl, rfl⟩ := h <;>
    first
      | rfl
      | exact absurd rfl hne

/-- Setting `lfo1_waveform` leaves every other registry entry's value
unchanged. -/
theorem frame_lfo1_waveform (st : Input) (x : WaveForm) :
    ∀ (fname : String) (acc : FieldAccessor Input),
      (fname, acc) ∈ inputStateDefinition → "lfo1_waveform" ≠ fname →
      observe acc { st with lfo1_waveform := x } = observe acc st := by
  intro fname acc hmem hne
  simp [inputStateDefinition] at hmem
  rcases hmem with h | h | h | h | h | h | h | h | h | h | h | h | h | h <;>
    obtain ⟨rfl, rfl⟩ := h <;>
    first
      | rfl
      | exact absurd rfl hne

/-- Setting `vco1_lfo1_amount` leaves every other registry entry's value
unchanged. -/
theorem frame_vco1_lfo1_amount (st : Input) (x : ℚ) :
    ∀ (fname : String) (acc : FieldAccessor Input),
      (fname, acc) ∈ inputStateDefinition → "vco1_lfo1_amount" ≠ fname →
      observe acc { st with vco1_lfo1_amount := x } = observe acc st := by
  intro fname acc hmem hne
  simp [inputStateDefinition] at hmem
  rcases hmem with h | h | h | h | h | h | h | h | h | h | h | h | h | h <;>
    obtain ⟨rfl, rfl⟩ := h <;>
    first
      | rfl
      | exact absurd rfl hne

/-- Setting `eg1_a` leaves every other registry entry's value unchanged. -/
theorem frame_eg1_a (st : Input) (x : ℚ) :
    ∀ (fname : String) (acc : FieldAccessor Input),
      (fname, acc) ∈ inputStateDefinition → "eg1_a" ≠ fname →
      observe acc { st with eg1_a := x } = observe acc st := by
  intro fname acc hmem hne
  simp [inputStateDefinition] at hmem
  rcases hmem with h | h | h | h | h | h | h | h | h | h | h | h | h | h <;>
    obtain ⟨rfl, rfl⟩ := h <;>
    first
      | rfl
      | exact absurd rfl hne

/-- Setting `eg1_d` leaves every other registry entry's value unchanged. -/
theorem frame_eg1_d (st : Input) (x : ℚ) :
    ∀ (fname : String) (acc : FieldAccessor Input),
      (fname, acc) ∈ inputStateDefinition → "eg1_d" ≠ fname →
      observe acc { st with eg1_d := x } = observe acc st := by
  intro fname acc hmem hne
  simp [inputStateDefinition] at hmem
  rcases hmem with h | h | h | h | h | h | h | h | h | h | h | h | h | h <;>
    obtain ⟨rfl, rfl⟩ := h <;>
    first
      | rfl
      | exact absurd rfl hne

/-- Setting `eg1_s` leaves every other registry entry's value unchanged. -/
theorem frame_eg1_s (st : Input) (x : ℚ) :
    ∀ (fname : String) (acc : FieldAccessor Input),
      (fname, acc) ∈ inputStateDefinition → "eg1_s" ≠ fname →
      observe acc { st with eg1_s := x } = observe acc st := by
  intro fname acc hmem hne
  simp [inputStateDefinition] at hmem
  rcases hmem with h | h | h | h | h | h | h | h | h | h | h | h | h | h <;>
    obtain ⟨rfl, rfl⟩ := h <;>
    first
      | rfl
      | exact absurd rfl hne

/-- Setting `eg1_r` leaves every other registry entry's value unchanged. -/
theorem frame_eg1_r (st : Input) (x : ℚ) :
    ∀ (fname : String) (acc : FieldAccessor Input),
      (fname, acc) ∈ inputStateDefinition → "eg1_r" ≠ fname →
      observe acc { st with eg1_r := x } = observe acc st := by
  intro fname acc hmem hne
  simp [inputStateDefinition] at hmem
  rcases hmem with h | h | h | h | h | h | h | h | h | h | h | h | h | h <;>
    obtain ⟨rfl, rfl⟩ := h <;>
    first
      | rfl
      | exact absurd rfl hne

/-- Setting `eg1_gate` leaves every other registry entry's value
unchanged. -/
theorem frame_eg1_gate (st : Input) (x : Bool) :
    ∀ (fname : String) (acc : FieldAccessor Input),
      (fname, acc) ∈ inputStateDefinition → "eg1_gate" ≠ fname →
      observe acc { st with eg1_gate := x } = observe acc st := by
  intro fname acc hmem hne
  simp [inputStateDefinition] at hmem
  rcases hmem with h | h | h | h | h | h | h | h | h | h | h | h | h | h <;>
    obtain ⟨rfl, rfl⟩ := h <;>
    first
      | rfl
      | exact absurd rfl hne

/-- Setting `eg1_repeat` leaves every other registry entry's value
unchanged. -/
theorem frame_eg1_repeat (st : Input) (x : Bool) :
    ∀ (fname : String) (acc : FieldAccessor Input),
      (fname, acc) ∈ inputStateDefinition → "eg1_repeat" ≠ fname →
      observe acc { st with eg1_repeat := x } = observe acc st := by
  intro fname acc hmem hne
  simp [inputStateDefinition] at hmem
  rcases hmem with h | h | h | h | h | h | h | h | h | h | h | h | h | h <;>
    obtain ⟨rfl, rfl⟩ := h <;>
    first
      | rfl
      | exact absurd rfl hne

/-- Setting `lpf1_freq` leaves every other registry entry's value
unchanged. -/
theorem frame_lpf1_freq (st : Input) (x : ℚ) :
    ∀ (fname : String) (acc : FieldAccessor Input),
      (fname, acc) ∈ inputStateDefinition → "lpf1_freq" ≠ fname →
      observe acc { st with lpf1_freq := x } = observe acc st := by
  intro fname acc hmem hne
  simp [inputStateDefinition] at hmem
  rcases hmem with h | h | h | h | h | h | h | h | h | h | h | h | h | h <;>
    obtain ⟨rfl, rfl⟩ := h <;>
    first
      | rfl
      | exact absurd rfl hne

/-- Setting `lpf1_resonance` leaves every other registry entry's value
unchanged. -/
theorem frame_lpf1_resonance (st : Input) (x : ℚ) :
    ∀ (fname : String) (acc : FieldAccessor Input),
      (fname, acc) ∈ inputStateDefinition → "lpf1_resonance" ≠ fname →
      observe acc { st with lpf1_resonance := x } = observe acc st := by
  intro fname acc hmem hne
  simp [inputStateDefinition] at hmem
  rcases hmem with h | h | h | h | h | h | h | h | h | h | h | h | h | h <;>
    obtain ⟨rfl, rfl⟩ := h <;>
    first
      | rfl
      | exact absurd rfl hne

/-- Setting `lpf1_lfo1_amount` leaves every other registry entry's value
unchanged. -/
theorem frame_lpf1_lfo1_amount (st : Input) (x : ℚ) :
    ∀ (fname : String) (acc : FieldAccessor Input),
      (fname, acc) ∈ inputStateDefinition → "lpf1_lfo1_amount" ≠ fname →
      observe acc { st with lpf1_lfo1_amount := x } = observe acc st := by
  intro fname acc hmem hne
  simp [inputStateDefinition] at hmem
  rcases hmem with h | h | h | h | h | h | h | h | h | h | h | h | h | h <;>
    obtain ⟨rfl, rfl⟩ := h <;>
    first
      | rfl
      | exact absurd rfl hne

/-- C10 (frame effect of `update_state`): every call succeeds without
panicking on the `main.rs` configuration and modifies at most the single
field named by the `InputConfig` bound to the key; a key with no binding
leaves the state untouched, and an Enum binding receiving a release (value
byte below 0x40) leaves the state untouched. -/
theorem c10_update_state_frame :
    ∀ (n v : ℕ) (st : Input),
      ∃ st', updateState inputStateDefinition setupInputs st
          (KeyT.controlChange n) v = some st'
        ∧ (∀ (fname : String) (acc : FieldAccessor Input),
            (fname, acc) ∈ inputStateDefinition →
            (alookup setupInputs (KeyT.controlChange n)).map cfgName
              ≠ some fname →
            observe acc st' = observe acc st)
        ∧ (alookup setupInputs (KeyT.controlChange n) = none → st' = st)
        ∧ (∀ (ename : String) (evalues : List String),
            alookup setupInputs (KeyT.controlChange n)
              = some (.enum ename evalues) → v < 0x40 → st' = st) := by
  intro n v st
  obtain rfl | h00 := eq_or_ne n 0x00
  · refine ⟨{ st with lfo1_freq := (v : ℚ) / 127 }, ?_, ?_, ?_, ?_⟩
    · simp [updateState, alookup, setupInputs, inputStateDefinition]
    · intro fname acc hmem hne
      simp [setupInputs, alookup, cfgName] at hne
      exact frame_lfo1_freq st _ fname acc hmem hne
    · intro hnone
      simp [setupInputs, alookup] at hnone
    · intro ename evalues heq _
      simp [setupInputs, alookup] at heq
  obtain rfl | h01 := eq_or_ne n 0x01
  · refine ⟨{ st with vco1_freq := (v : ℚ) / 127 }, ?_, ?_, ?_, ?_⟩
    · simp [updateState, alookup, setupInputs, inputStateDefinition]
    · intro fname acc hmem hne
      simp [setupInputs, alookup, cfgName] at hne
      exact frame_vco1_freq st _ fname acc hmem hne
    · intro hnone
      simp [setupInputs, alookup] at hnone
    · intro ename evalues heq _
      simp [setupInputs, alookup] at heq
  obtain rfl | h10 := eq_or_ne n 0x10
  · refine ⟨{ st with vco1_lfo1_amount := (v : ℚ) / 127 }, ?_, ?_, ?_, ?_⟩
    · simp [updateState, alookup, setupInputs, inputStateDefinition]
    · intro fname acc hmem hne
      simp [setupInputs, alookup, cfgName] at hne
      exact frame_vco1_lfo1_amount st _ fname acc hmem hne
    · intro hnone
      simp [setupInputs, alookup] at hnone
    · intro ename evalues heq _
      simp [setupInputs, alookup] at heq
  obtain rfl | h02 := eq_or_ne n 0x02
  · refine ⟨{ st with eg1_a := (v : ℚ) / 127 }, ?_, ?_, ?_, ?_⟩
    · simp [updateState, alookup, setupInputs, inputStateDefinition]
    · intro fname acc hmem hne
      simp [setupInputs, alookup, cfgName] at hne
      exact frame_eg1_a st _ fname acc hmem hne
    · intro hnone
      simp [setupInputs, alookup] at hnone
    · intro ename evalues heq _
      simp [setupInputs, alookup] at heq
  obtain rfl | h12 := eq_or_ne n 0x12
  · refine ⟨{ st with eg1_d := (v : ℚ) / 127 }, ?_, ?_, ?_, ?_⟩
    · simp [updateState, alookup, setupInputs, inputStateDefinition]
    · intro fname acc hmem hne
      simp [setupInputs, alookup, cfgName] at hne
      exact frame_eg1_d st _ fname acc hmem hne
    · intro hnone
      simp [setupInputs, alookup] at hnone
    · intro ename evalues heq _
      simp [setupInputs, alookup] at heq
  obtain rfl | h03 := eq_or_ne n 0x03
  · refine ⟨{ st with eg1_s := (v : ℚ) / 127 }, ?_, ?_, ?_, ?_⟩
    · simp [updateState, alookup, setupInputs, inputStateDefinition]
    · intro fname acc hmem hne
      simp [setupInputs, alookup, cfgName] at hne
      exact frame_eg1_s st _ fname acc hmem hne
    · intro hnone
      simp [setupInputs, alookup] at hnone
    · intro ename evalues heq _
      simp [setupInputs, alookup] at heq
  obtain rfl | h13 := eq_or_ne n 0x13
  · refine ⟨{ st with eg1_r := (v : ℚ) / 127 }, ?_, ?_, ?_, ?_⟩
    · simp [updateState, alookup, setupInputs, inputStateDefinition]
    · intro fname acc hmem hne
      simp [setupInputs, alookup, cfgName] at hne
      exact frame_eg1_r st _ fname acc hmem hne
    · intro hnone
      simp [setupInputs, alookup] at hnone
    · intro ename evalues heq _
      simp [setupInputs, alookup] at heq
  obtain rfl | h04 := eq_or_ne n 0x04
  · refine ⟨{ st with lpf1_freq := (v : ℚ) / 127 }, ?_, ?_, ?_, ?_⟩
    · simp [updateState, alookup, setupInputs, inputStateDefinition]
    · intro fname acc hmem hne
      simp [setupInputs, alookup, cfgName] at hne
      exact frame_lpf1_freq st _ fname acc hmem hne
    · intro hnone
      simp [setupInputs, alookup] at hnone
    · intro ename evalues heq _
      simp [setupInputs, alookup] at heq
  obtain rfl | h14 := eq_or_ne n 0x14
  · refine ⟨{ st with lpf1_resonance := (v : ℚ) / 127 }, ?_, ?_, ?_, ?_⟩
    · simp [updateState, alookup, setupInputs, inputStateDefinition]
    · intro fname acc hmem hne
      simp [setupInputs, alookup, cfgName] at hne
      exact frame_lpf1_resonance st _ fname acc hmem hne
    · intro hnone
      simp [setupInputs, alookup] at hnone
    · intro ename evalues heq _
      simp [setupInputs, alookup] at heq
  obtain rfl | h15 := eq_or_ne n 0x15
  · refine ⟨{ st with lpf1_lfo1_amount := (v : ℚ) / 127 }, ?_, ?_, ?_, ?_⟩
    · simp [updateState, alookup, setupInputs, inputStateDefinition]
    · intro fname acc hmem hne
      simp [setupInputs, alookup, cfgName] at hne
      exact frame_lpf1_lfo1_amount st _ fname acc hmem hne
    · intro hnone
      simp [setupInputs, alookup] at hnone
    · intro ename evalues heq _
      simp [setupInputs, alookup] at heq
  obtain rfl | h20 := eq_or_ne n 0x20
  · by_cases hv : 0x40 ≤ v
    · obtain ⟨w, hw⟩ : ∃ w, updateState inputStateDefinition setupInputs st
          (KeyT.controlChange 0x20) v
            = some { st with lfo1_waveform := w } := by
        cases hwf : st.lfo1_waveform
        · exact ⟨.triangle, by simp [updateState, alookup, setupInputs,
            inputStateDefinition, waveFormToName, waveFormFromName, hv, hwf]⟩
        · exact ⟨.sine, by simp [updateState, alookup, setupInputs,
            inputStateDefinition, waveFormToName, waveFormFromName, hv, hwf]⟩
        · exact ⟨.sine, by simp [updateState, alookup, setupInputs,
            inputStateDefinition, waveFormToName, waveFormFromName, hv, hwf]⟩
        · exact ⟨.sine, by simp [updateState, alookup, setupInputs,
            inputStateDefinition, waveFormToName, waveFormFromName, hv, hwf]⟩
        · exact ⟨.sine, by simp [updateState, alookup, setupInputs,
            inputStateDefinition, waveFormToName, waveFormFromName, hv, hwf]⟩
      refine ⟨{ st with lfo1_waveform := w }, hw, ?_, ?_, ?_⟩
      · intro fname acc hmem hne
        simp [setupInputs, alookup, cfgName] at hne
        exact frame_lfo1_waveform st w fname acc hmem hne
      · intro hnone
        simp [setupInputs, alookup] at hnone
      · intro ename evalues _ hv2
        omega
    · refine ⟨st, ?_, fun _ _ _ _ => rfl, fun _ => rfl, fun _ _ _ _ => rfl⟩
      simp [updateState, alookup, setupInputs, inputStateDefinition, hv]
  obtain rfl | h30 := eq_or_ne n 0x30
  · by_cases hv : 0x40 ≤ v
    · obtain ⟨w, hw⟩ : ∃ w, updateState inputStateDefinition setupInputs st
          (KeyT.controlChange 0x30) v
            = some { st with lfo1_waveform := w } := by
        cases hwf : st.lfo1_waveform <;>
          exact ⟨.sawtooth, by simp [updateState, alookup, setupInputs,
            inputStateDefinition, waveFormToName, waveFormFromName, hv, hwf]⟩
      refine ⟨{ st with lfo1_waveform := w }, hw, ?_, ?_, ?_⟩
      · intro fname acc hmem hne
        simp [setupInputs, alookup, cfgName] at hne
        exact frame_lfo1_waveform st w fname acc hmem hne
      · intro hnone
        simp [setupInputs, alookup] at hnone
      · intro ename evalues _ hv2
        omega
    · refine ⟨st, ?_, fun _ _ _ _ => rfl, fun _ => rfl, fun _ _ _ _ => rfl⟩
      simp [updateState, alookup, setupInputs, inputStateDefinition, hv]
  obtain rfl | h40 := eq_or_ne n 0x40
  · by_cases hv : 0x40 ≤ v
    · obtain ⟨w, hw⟩ : ∃ w, updateState inputStateDefinition setupInputs st
          (KeyT.controlChange 0x40) v
            = some { st with lfo1_waveform := w } := by
        cases hwf : st.lfo1_waveform
        · exact ⟨.square, by simp [updateState, alookup, setupInputs,
            inputStateDefinition, waveFormToName, waveFormFromName, hv, hwf]⟩
        · exact ⟨.square, by simp [updateState, alookup, setupInputs,
            inputStateDefinition, waveFormToName, waveFormFromName, hv, hwf]⟩
        · exact ⟨.square, by simp [updateState, alookup, setupInputs,
            inputStateDefinition, waveFormToName, waveFormFromName, hv, hwf]⟩
        · exact ⟨.noise, by simp [updateState, alookup, setupInputs,
            inputStateDefinition, waveFormToName, waveFormFromName, hv, hwf]⟩
        · exact ⟨.square, by simp [updateState, alookup, setupInputs,
            inputStateDefinition, waveFormToName, waveFormFromName, hv, hwf]⟩
      refine ⟨{ st with lfo1_waveform := w }, hw, ?_, ?_, ?_⟩
      · intro fname acc hmem hne
        simp [setupInputs, alookup, cfgName] at hne
        exact frame_lfo1_waveform st w fname acc hmem hne
      · intro hnone
        simp [setupInputs, alookup] at hnone
      · intro ename evalues _ hv2
        omega
    · refine ⟨st, ?_, fun _ _ _ _ => rfl, fun _ => rfl, fun _ _ _ _ => rfl⟩
      simp [updateState, alookup, setupInputs, inputStateDefinition, hv]
  obtain rfl | h21 := eq_or_ne n 0x21
  · by_cases hv : 0x40 ≤ v
    · obtain ⟨w, hw⟩ : ∃ w, updateState inputStateDefinition setupInputs st
          (KeyT.controlChange 0x21) v
            = some { st with vco1_waveform := w } := by
        cases hwf : st.vco1_waveform
        · exact ⟨.triangle, by simp [updateState, alookup, setupInputs,
            inputStateDefinition, waveFormToName, waveFormFromName, hv, hwf]⟩
        · exact ⟨.sine, by simp [updateState, alookup, setupInputs,
            inputStateDefinition, waveFormToName, waveFormFromName, hv, hwf]⟩
        · exact ⟨.sine, by simp [updateState, alookup, setupInputs,
            inputStateDefinition, waveFormToName, waveFormFromName, hv, hwf]⟩
        · exact ⟨.sine, by simp [updateState, alookup, setupInputs,
            inputStateDefinition, waveFormToName, waveFormFromName, hv, hwf]⟩
        · exact ⟨.sine, by simp [updateState, alookup, setupInputs,
            inputStateDefinition, waveFormToName, waveFormFromName, hv, hwf]⟩
      refine ⟨{ st with vco1_waveform := w }, hw, ?_, ?_, ?_⟩
      · intro fname acc hmem hne
        simp [setupInputs, alookup, cfgName] at hne
        exact frame_vco1_waveform st w fname acc hmem hne
      · intro hnone
        simp [setupInputs, alookup] at hnone
      · intro ename evalues _ hv2
        omega
    · refine ⟨st, ?_, fun _ _ _ _ => rfl, fun _ => rfl, fun _ _ _ _ => rfl⟩
      simp [updateState, alookup, setupInputs, inputStateDefinition, hv]
  obtain rfl | h31 := eq_or_ne n 0x31
  · by_cases hv : 0x40 ≤ v
    · obtain ⟨w, hw⟩ : ∃ w, updateState inputStateDefinition setupInputs st
          (KeyT.controlChange 0x31) v
            = some { st with vco1_waveform := w } := by
        cases hwf : st.vco1_waveform <;>
          exact ⟨.sawtooth, by simp [updateState, alookup, setupInputs,
            inputStateDefinition, waveFormToName, waveFormFromName, hv, hwf]⟩
      refine ⟨{ st with vco1_waveform := w }, hw, ?_, ?_, ?_⟩
      · intro fname acc hmem hne
        simp [setupInputs, alookup, cfgName] at hne
        exact frame_vco1_waveform st w fname acc hmem hne
      · intro hnone
        simp [setupInputs, alookup] at hnone
      · intro ename evalues _ hv2
        omega
    · refine ⟨st, ?_, fun _ _ _ _ => rfl, fun _ => rfl, fun _ _ _ _ => rfl⟩
      simp [updateState, alookup, setupInputs, inputStateDefinition, hv]
  obtain rfl | h41 := eq_or_ne n 0x41
  · by_cases hv : 0x40 ≤ v
    · obtain ⟨w, hw⟩ : ∃ w, updateState inputStateDefinition setupInputs st
          (KeyT.controlChange 0x41) v
            = some { st with vco1_waveform := w } := by
        cases hwf : st.vco1_waveform
        · exact ⟨.square, by simp [updateState, alookup, setupInputs,
            inputStateDefinition, waveFormToName, waveFormFromName, hv, hwf]⟩
        · exact ⟨.square, by simp [updateState, alookup, setupInputs,
            inputStateDefinition, waveFormToName, waveFormFromName, hv, hwf]⟩
        · exact ⟨.square, by simp [updateState, alookup, setupInputs,
            inputStateDefinition, waveFormToName, waveFormFromName, hv, hwf]⟩
        · exact ⟨.noise, by simp [updateState, alookup, setupInputs,
            inputStateDefinition, waveFormToName, waveFormFromName, hv, hwf]⟩
        · exact ⟨.square, by simp [updateState, alookup, setupInputs,
            inputStateDefinition, waveFormToName, waveFormFromName, hv, hwf]⟩
      refine ⟨{ st with vco1_waveform := w }, hw, ?_, ?_, ?_⟩
      · intro fname acc hmem hne
        simp [setupInputs, alookup, cfgName] at hne
        exact frame_vco1_waveform st w fname acc hmem hne
      · intro hnone
        simp [setupInputs, alookup] at hnone
      · intro ename evalues _ hv2
        omega
    · refine ⟨st, ?_, fun _ _ _ _ => rfl, fun _ => rfl, fun _ _ _ _ => rfl⟩
      simp [updateState, alookup, setupInputs, inputStateDefinition, hv]
  obtain rfl | h32 := eq_or_ne n 0x32
  · by_cases hv : 0x40 ≤ v
    · refine ⟨{ st with eg1_repeat := !st.eg1_repeat }, ?_, ?_, ?_, ?_⟩
      · simp [updateState, alookup, setupInputs, inputStateDefinition, hv]
      · intro fname acc hmem hne
        simp [setupInputs, alookup, cfgName] at hne
        exact frame_eg1_repeat st _ fname acc hmem hne
      · intro hnone
        simp [setupInputs, alookup] at hnone
      · intro ename evalues heq _
        simp [setupInputs, alookup] at heq
    · refine ⟨st, ?_, fun _ _ _ _ => rfl, fun _ => rfl, fun _ _ _ _ => rfl⟩
      simp [updateState, alookup, setupInputs, inputStateDefinition, hv]
  obtain rfl | h42 := eq_or_ne n 0x42
  · refine ⟨{ st with eg1_gate := decide (0x40 ≤ v) }, ?_, ?_, ?_, ?_⟩
    · simp [updateState, alookup, setupInputs, inputStateDefinition]
    · intro fname acc hmem hne
      simp [setupInputs, alookup, cfgName] at hne
      exact frame_eg1_gate st _ fname acc hmem hne
    · intro hnone
      simp [setupInputs, alookup] at hnone
    · intro ename evalues heq _
      simp [setupInputs, alookup] at heq
  refine ⟨st, ?_, fun _ _ _ _ => rfl, fun _ => rfl, fun _ _ _ _ => rfl⟩
  simp [updateState, alookup, setupInputs, h00, h01, h10, h02, h12, h03,
    h13, h04, h14, h15, h20, h30, h40, h21, h31, h41, h32, h42]

/-- Witness for C10 at the unbound key 5: the state comes back entirely
unchanged. -/
theorem c10_update_state_frame_witness :
    ∃ st', updateState inputStateDefinition setupInputs inputDefault
        (KeyT.controlChange 5) 0 = some st' ∧ st' = inputDefault := by
  obtain ⟨st', h1, _, h3, _⟩ := c10_update_state_frame 5 0 inputDefault
  exact ⟨st', h1, h3 (by simp [setupInputs, alookup])⟩

end RustSynth
